import Mathlib

/-!
Verification development for the time-table-scheduler repository.

The Python sources under `src/src` are shallowly embedded: pure functions
become Lean functions, mutable objects become explicit state passing, Python
sets are modelled as lists carrying an iteration order, `datetime.time`
values as hour/minute pairs, floats as rationals, and code that can raise
becomes `Except`-valued.  Database and file I/O performed by the generator
is abstracted into oracle parameters.
-/

namespace TTS

/-- Embedding of Python `datetime.time` restricted to the fields the
repository uses (hour and minute).  Python orders `time` values
lexicographically by (hour, minute, ...), which coincides with the order of
`toMin` here. -/
structure PyTime where
  hour : Nat
  minute : Nat
deriving DecidableEq, Repr

/-- Total minutes since midnight; Python's comparison order on `time`. -/
def PyTime.toMin (t : PyTime) : Nat := t.hour * 60 + t.minute

/-- Embedding of Python `a < b` on `datetime.time`. -/
def PyTime.ltb (a b : PyTime) : Bool := a.toMin < b.toMin

/-- Embedding of Python `a <= b` on `datetime.time`. -/
def PyTime.leb (a b : PyTime) : Bool := a.toMin ≤ b.toMin

/-- Embedding of `TimeSlot` from `src/src/csp/variable.py`: a dataclass with
fields `day`, `start_time`, `end_time`. -/
structure TimeSlot where
  day : String
  start_time : PyTime
  end_time : PyTime
deriving DecidableEq, Repr

/-- Embedding of `TimeSlot.overlaps` from `src/src/csp/variable.py`. -/
def TimeSlot.overlaps (a b : TimeSlot) : Bool :=
  a.day == b.day && a.start_time.ltb b.end_time && b.start_time.ltb a.end_time

/-- The `__eq__` generated for the `TimeSlot` dataclass: structural
comparison of the field tuple (day, start_time, end_time). -/
def tsDataclassEq (a b : TimeSlot) : Bool :=
  a.day == b.day && a.start_time == b.start_time && a.end_time == b.end_time

/-- Reference overlap predicate, following the spec's words:
same day and `a.start < b.end` and `b.start < a.end`. -/
def overlapsSpec (a b : TimeSlot) : Prop :=
  a.day = b.day ∧ a.start_time.toMin < b.end_time.toMin ∧
    b.start_time.toMin < a.end_time.toMin

/-! ### The dataclass hashing protocol

`TimeSlot` is declared with a bare `@dataclass` decorator.  CPython's
`dataclasses` module decides the generated `__hash__` from the decorator
arguments `eq`, `frozen` and the hash-forcing flag: if the hash-forcing
flag is set a hash method is generated; otherwise with `eq=True` and
`frozen=True` a hash method is generated; with `eq=True` and `frozen=False`
the class gets `__hash__ = None` and its instances are unhashable; with
`eq=False` the identity-based hash is inherited.  Inserting an unhashable
object into a `set`/`dict` raises `TypeError`. -/

/-- Decorator arguments of a Python dataclass relevant to hashing.
Defaults are those of a bare `@dataclass`. -/
structure DataclassArgs where
  eq : Bool := true
  frozen : Bool := false
  forceHash : Bool := false
deriving DecidableEq, Repr

/-- What `__hash__` a dataclass ends up with. -/
inductive HashDisposition where
  /-- a structural hash method is generated -/
  | generated
  /-- the class gets the hash slot set to the null value: unhashable -/
  | hashNone
  /-- the identity-based hash of `object` is inherited -/
  | inherited
deriving DecidableEq, Repr

/-- CPython's rule assigning a hash disposition to dataclass arguments. -/
def dataclassHash (a : DataclassArgs) : HashDisposition :=
  if a.forceHash then .generated
  else if a.eq && a.frozen then .generated
  else if a.eq && !a.frozen then .hashNone
  else .inherited

/-- The decorator arguments used for `TimeSlot` in
`src/src/csp/variable.py`: a bare `@dataclass`. -/
def timeSlotDataclassArgs : DataclassArgs := {}

/-- Whether instances can be used as keys of hash-based containers. -/
def HashDisposition.hashable : HashDisposition → Bool
  | .hashNone => false
  | _ => true

/-- Inserting a value into a Python `set`, given the hash disposition of
its class: unhashable values raise `TypeError`. -/
def pySetInsert (h : HashDisposition) (s : List TimeSlot) (x : TimeSlot) :
    Except String (List TimeSlot) :=
  if h.hashable then
    .ok (if x ∈ s then s else s ++ [x])
  else
    .error "TypeError: unhashable type: 'TimeSlot'"

/-- A concrete slot, Monday 09:00-10:00, as built by the repository's own
tests. -/
def mondaySlot : TimeSlot := ⟨"Monday", ⟨9, 0⟩, ⟨10, 0⟩⟩

/-- C1: TimeSlot equality is indeed structural over (day, start, end), but
the hashing half of the claim fails: `TimeSlot` is a bare `@dataclass`
(`eq=True`, `frozen=False`), so CPython sets its hash slot to the null
value and inserting any `TimeSlot` into a set or dict raises `TypeError`.
The theorem evaluates the embedded dataclass protocol at the failing
input. -/
theorem C1_timeslot_unhashable :
    (∀ a b : TimeSlot, tsDataclassEq a b = true ↔
      (a.day = b.day ∧ a.start_time = b.start_time ∧ a.end_time = b.end_time)) ∧
    dataclassHash timeSlotDataclassArgs = HashDisposition.hashNone ∧
    pySetInsert (dataclassHash timeSlotDataclassArgs) [] mondaySlot =
      .error "TypeError: unhashable type: 'TimeSlot'" := by
  refine ⟨?_, rfl, rfl⟩
  intro a b
  simp [tsDataclassEq, Bool.and_eq_true, beq_iff_eq, and_assoc]

/-- C9: `TimeSlot.overlaps` agrees with the reference definition, is
symmetric, and any slot with `start < end` overlaps itself. -/
theorem C9_overlaps_props :
    ∀ a b : TimeSlot,
      (a.overlaps b = true ↔ overlapsSpec a b) ∧
      a.overlaps b = b.overlaps a ∧
      (a.start_time.toMin < a.end_time.toMin → a.overlaps a = true) := by
  intro a b
  refine ⟨?_, ?_, ?_⟩
  · simp [TimeSlot.overlaps, overlapsSpec, PyTime.ltb, Bool.and_eq_true,
      beq_iff_eq, decide_eq_true_eq, and_assoc]
  · simp only [TimeSlot.overlaps]
    rcases h : a.day == b.day with _ | _
    · have : (b.day == a.day) = false := by
        simp only [beq_eq_false_iff_ne] at h ⊢
        exact fun hh => h hh.symm
      simp [h, this]
    · have : (b.day == a.day) = true := by
        simp only [beq_iff_eq] at h ⊢
        exact h.symm
      simp [h, this]
      rcases a.start_time.ltb b.end_time <;> rcases b.start_time.ltb a.end_time <;> rfl
  · intro h
    simp [TimeSlot.overlaps, PyTime.ltb, h]

/-- Witness for C9 at concrete slots: Monday 09:00-10:00 has a positive
duration and overlaps itself. -/
theorem C9_overlaps_props_witness :
    mondaySlot.start_time.toMin < mondaySlot.end_time.toMin ∧
      mondaySlot.overlaps mondaySlot = true :=
  ⟨by decide, (C9_overlaps_props mondaySlot mondaySlot).2.2 (by decide)⟩

/-! ### Variables (`src/src/csp/variable.py`) -/

/-- Embedding of `ResourceRequirements` from `src/src/csp/variable.py`. -/
structure ResourceRequirements where
  room_type : String
  min_capacity : Int
  requires_lab : Bool := false
  requires_projector : Bool := false
deriving DecidableEq, Repr

/-- Embedding of `Variable`: identity, requirements, the three optional
assignment fields, and the three candidate sets (Python sets carried as
lists in iteration order). -/
structure Variable where
  course_id : String
  level : Int
  requirements : ResourceRequirements
  assigned_time : Option TimeSlot := none
  assigned_room : Option String := none
  assigned_instructor : Option String := none
  possible_times : List TimeSlot := []
  possible_rooms : List String := []
  possible_instructors : List String := []
deriving DecidableEq, Repr

/-- Python truthiness of an optional `TimeSlot` field: `None` is falsy and
a dataclass instance is always truthy. -/
def optSlotTruthy : Option TimeSlot → Bool
  | none => false
  | some _ => true

/-- Python truthiness of an optional string field: `None` and the empty
string are falsy. -/
def optStrTruthy : Option String → Bool
  | none => false
  | some s => s ≠ ""

/-- Embedding of the `Variable.is_assigned` property: `all` over the
truthiness of the three assignment fields. -/
def Variable.is_assigned (v : Variable) : Bool :=
  optSlotTruthy v.assigned_time && optStrTruthy v.assigned_room &&
    optStrTruthy v.assigned_instructor

/-- Embedding of `Variable.assign`. -/
def Variable.assign (v : Variable) (t : TimeSlot) (r i : String) : Variable :=
  { v with assigned_time := some t, assigned_room := some r,
           assigned_instructor := some i }

/-- Embedding of `Variable.unassign`. -/
def Variable.unassign (v : Variable) : Variable :=
  { v with assigned_time := none, assigned_room := none,
           assigned_instructor := none }

/-- Embedding of `Variable.set_domain`. -/
def Variable.set_domain (v : Variable) (times : List TimeSlot)
    (rooms instructors : List String) : Variable :=
  { v with possible_times := times, possible_rooms := rooms,
           possible_instructors := instructors }

/-- Embedding of `Variable.domain_size`: product of the three candidate-set
cardinalities. -/
def Variable.domain_size (v : Variable) : Nat :=
  v.possible_times.length * v.possible_rooms.length *
    v.possible_instructors.length

/-- Embedding of `Variable.conflicts_with`: both assigned, a truthiness
check on both time fields, overlap, and coinciding room or instructor. -/
def Variable.conflicts_with (a b : Variable) : Bool :=
  if !(a.is_assigned && b.is_assigned) then false
  else
    match a.assigned_time, b.assigned_time with
    | some t1, some t2 =>
      if t1.overlaps t2 then
        a.assigned_room == b.assigned_room ||
          a.assigned_instructor == b.assigned_instructor
      else false
    | _, _ => false

/-- Embedding of `Variable.clone`: a fresh variable with the same identity,
assignment fields, and copies of the candidate sets. -/
def Variable.clone (v : Variable) : Variable :=
  { course_id := v.course_id, level := v.level,
    requirements := v.requirements,
    assigned_time := v.assigned_time, assigned_room := v.assigned_room,
    assigned_instructor := v.assigned_instructor,
    possible_times := v.possible_times, possible_rooms := v.possible_rooms,
    possible_instructors := v.possible_instructors }

/-- C10: assignment presence is decided by truthiness, not non-None-ness.
Assigning an empty-string room or instructor sets all three fields, yet
`is_assigned` is false and `conflicts_with` returns false against every
other variable, in both orders. -/
theorem C10_truthiness (v : Variable) (t : TimeSlot) (r i : String)
    (h : r = "" ∨ i = "") :
    (v.assign t r i).assigned_time = some t ∧
    (v.assign t r i).assigned_room = some r ∧
    (v.assign t r i).assigned_instructor = some i ∧
    (v.assign t r i).is_assigned = false ∧
    (∀ w : Variable, (v.assign t r i).conflicts_with w = false ∧
      w.conflicts_with (v.assign t r i) = false) := by
  have hassigned : (v.assign t r i).is_assigned = false := by
    rcases h with h | h <;>
      simp [Variable.assign, Variable.is_assigned, optSlotTruthy, optStrTruthy, h]
  refine ⟨rfl, rfl, rfl, hassigned, ?_⟩
  intro w
  constructor
  · simp [Variable.conflicts_with, hassigned]
  · simp [Variable.conflicts_with, hassigned]

/-- Witness for C10: a concrete variable assigned an empty instructor id. -/
theorem C10_truthiness_witness :
    ("" : String) = "" ∧
      (({ course_id := "CSC111", level := 1,
          requirements := ⟨"Lecture", 30, false, false⟩ } :
            Variable).assign mondaySlot "R101" "").is_assigned = false := by
  refine ⟨rfl, ?_⟩
  exact (C10_truthiness _ mondaySlot "R101" "" (Or.inr rfl)).2.2.2.1

/-! ### Domain (`src/src/csp/domain.py`) -/

/-- Embedding of `RoomAvailability`: rooms carry a mutable list of
available time slots and a feature dict. -/
structure RoomAvailability where
  room_id : String
  room_type : String
  capacity : Int
  available_times : List TimeSlot := []
  features : List (String × Bool) := []
deriving DecidableEq, Repr

/-- Embedding of `InstructorAvailability`. -/
structure InstructorAvailability where
  instructor_id : String
  max_hours_per_day : Int := 6
  preferred_times : List TimeSlot := []
  available_times : List TimeSlot := []
deriving DecidableEq, Repr

/-- Embedding of `Domain` after `_load_domain_data` has run: the global
slot list, and the room/instructor dicts as association lists in insertion
order.  The database manager handle is dropped; loading is I/O outside the
embedding. -/
structure Domain where
  time_slots : List TimeSlot := []
  rooms : List (String × RoomAvailability) := []
  instructors : List (String × InstructorAvailability) := []
deriving DecidableEq, Repr

/-- Python `dict.get` / `in` on the rooms dict. -/
def Domain.getRoom (d : Domain) (k : String) : Option RoomAvailability :=
  (d.rooms.find? (fun p => p.1 == k)).map Prod.snd

/-- Python `dict.get` / `in` on the instructors dict. -/
def Domain.getInstructor (d : Domain) (k : String) : Option InstructorAvailability :=
  (d.instructors.find? (fun p => p.1 == k)).map Prod.snd

/-- Python `dict.get` with default `None` on a feature dict; truthiness of
the result (`None` falsy). -/
def featureTruthy (fs : List (String × Bool)) (k : String) : Bool :=
  match (fs.find? (fun p => p.1 == k)).map Prod.snd with
  | none => false
  | some b => b

/-- `list.remove` wrapped in `try/except ValueError: pass`: remove the
first occurrence if present, otherwise leave the list unchanged. -/
def pyListRemoveFirst (xs : List TimeSlot) (x : TimeSlot) : List TimeSlot :=
  match xs with
  | [] => []
  | y :: ys => if y = x then ys else y :: pyListRemoveFirst ys x

/-- Update the entry for key `k` in the rooms dict in place. -/
def updateRoomEntry (rooms : List (String × RoomAvailability)) (k : String)
    (f : RoomAvailability → RoomAvailability) :
    List (String × RoomAvailability) :=
  rooms.map (fun p => if p.1 == k then (p.1, f p.2) else p)

/-- Update the entry for key `k` in the instructors dict in place. -/
def updateInstructorEntry (instrs : List (String × InstructorAvailability))
    (k : String) (f : InstructorAvailability → InstructorAvailability) :
    List (String × InstructorAvailability) :=
  instrs.map (fun p => if p.1 == k then (p.1, f p.2) else p)

/-- Embedding of `Domain.update_availability`: the source only has the
room branch (guarded by truthiness of `room_id` and key membership); the
instructor parameter is accepted but never used. -/
def Domain.update_availability (d : Domain) (slot : TimeSlot)
    (room_id instructor_id : Option String) : Domain :=
  match room_id with
  | some rid =>
    if (rid != "") && (d.getRoom rid).isSome then
      let newRooms := updateRoomEntry d.rooms rid
        (fun ra => { ra with available_times := pyListRemoveFirst ra.available_times slot })
      { d with rooms := newRooms }
    else d
  | none => d

/-- Embedding of `Domain.restore_availability`: both branches append the
slot when it is absent. -/
def Domain.restore_availability (d : Domain) (slot : TimeSlot)
    (room_id instructor_id : Option String) : Domain :=
  let d1 :=
    match room_id with
    | some rid =>
      if (rid != "") && (d.getRoom rid).isSome then
        let newRooms := updateRoomEntry d.rooms rid
          (fun ra => if slot ∈ ra.available_times then ra
            else { ra with available_times := ra.available_times ++ [slot] })
        { d with rooms := newRooms }
      else d
    | none => d
  match instructor_id with
  | some iid =>
    if (iid != "") && (d1.getInstructor iid).isSome then
      let newInstrs := updateInstructorEntry d1.instructors iid
        (fun ia => if slot ∈ ia.available_times then ia
          else { ia with available_times := ia.available_times ++ [slot] })
      { d1 with instructors := newInstrs }
    else d1
  | none => d1

/-- Embedding of `Domain.get_available_values`: the deduplicated global
slot set, rooms filtered by type, capacity and feature flags, and the full
instructor key set. -/
def Domain.get_available_values (d : Domain) (req : ResourceRequirements) :
    List TimeSlot × List String × List String :=
  let available_times := d.time_slots.eraseDups
  let suitable_rooms :=
    (d.rooms.filter (fun p =>
      p.2.room_type == req.room_type && p.2.capacity ≥ req.min_capacity &&
      (!req.requires_lab || featureTruthy p.2.features "lab") &&
      (!req.requires_projector || featureTruthy p.2.features "projector"))).map
      Prod.fst
  let qualified_instructors := d.instructors.map Prod.fst
  (available_times, suitable_rooms, qualified_instructors)

/-- A one-slot, one-room, one-instructor domain mirroring the fixture of
`tests/test_domain.py`. -/
def domainC6 : Domain :=
  { time_slots := [⟨"Monday", ⟨9, 0⟩, ⟨10, 30⟩⟩],
    rooms := [("R101",
      { room_id := "R101", room_type := "Lecture", capacity := 30,
        available_times := [⟨"Monday", ⟨9, 0⟩, ⟨10, 30⟩⟩] })],
    instructors := [("INS1",
      { instructor_id := "INS1",
        available_times := [⟨"Monday", ⟨9, 0⟩, ⟨10, 30⟩⟩] })] }

/-- C6: evaluating the code at the failing input of
`tests/test_domain.py::test_availability_updates`.  After
`update_availability(slot, "R101", "INS1")` the slot is gone from the
room's `available_times` but still present in the instructor's, because
the instructor branch is missing from the source; the repository's own
test asserts it is removed.  `restore_availability` behaves as the claim
says. -/
theorem C6_update_misses_instructor :
    (Domain.update_availability domainC6 ⟨"Monday", ⟨9, 0⟩, ⟨10, 30⟩⟩
        (some "R101") (some "INS1")).getRoom "R101" =
      some { room_id := "R101", room_type := "Lecture", capacity := 30,
             available_times := [] } ∧
    (Domain.update_availability domainC6 ⟨"Monday", ⟨9, 0⟩, ⟨10, 30⟩⟩
        (some "R101") (some "INS1")).getInstructor "INS1" =
      some { instructor_id := "INS1",
             available_times := [⟨"Monday", ⟨9, 0⟩, ⟨10, 30⟩⟩] } ∧
    (Domain.restore_availability
        (Domain.update_availability domainC6 ⟨"Monday", ⟨9, 0⟩, ⟨10, 30⟩⟩
          (some "R101") (some "INS1"))
        ⟨"Monday", ⟨9, 0⟩, ⟨10, 30⟩⟩ (some "R101") (some "INS1")) =
      domainC6 := by
  refine ⟨rfl, rfl, ?_⟩
  decide

/-! ### Constraints (`src/src/csp/constraints.py`,
`src/src/csp/specific_constraints.py`) -/

/-- Embedding of `ConstraintViolation`; severities are rationals standing
for the Python floats. -/
structure ConstraintViolation where
  constraint_type : String
  description : String
  «variables» : List Variable
  severity : ℚ
deriving DecidableEq, Repr

/-- Embedding of `NoOverlapConstraint.check`: walk ordered pairs and emit a
severity-1.0 `resource_overlap` violation for each conflicting pair. -/
def noOverlapCheck : List Variable → List ConstraintViolation
  | [] => []
  | v :: rest =>
    (rest.filterMap (fun w =>
      if v.conflicts_with w then
        some { constraint_type := "resource_overlap",
               description := "Resource conflict between " ++ v.course_id ++
                 " and " ++ w.course_id,
               «variables» := [v, w], severity := 1 }
      else none)) ++ noOverlapCheck rest

/-- Embedding of `RoomTypeConstraint.check`: for each assigned variable
with a truthy room id whose domain record exists and mismatches the
required type, emit a severity-1.0 `room_type_mismatch` violation. -/
def roomTypeCheck (d : Domain) (vars : List Variable) : List ConstraintViolation :=
  vars.filterMap (fun v =>
    if v.is_assigned && optStrTruthy v.assigned_room then
      match v.assigned_room with
      | some rid =>
        match d.getRoom rid with
        | some room =>
          if room.room_type ≠ v.requirements.room_type then
            some { constraint_type := "room_type_mismatch",
                   description := "Room type mismatch for " ++ v.course_id,
                   «variables» := [v], severity := 1 }
          else none
        | none => none
      | none => none
    else none)

/-- Lookup in the per-level slot dict used by `LevelConstraint.check`. -/
def levelTimesGet (m : List (Int × List TimeSlot)) (k : Int) : List TimeSlot :=
  ((m.find? (fun p => p.1 == k)).map Prod.snd).getD []

/-- Add a slot to a level's slot set (Python `set.add`). -/
def levelTimesAdd (m : List (Int × List TimeSlot)) (k : Int) (t : TimeSlot) :
    List (Int × List TimeSlot) :=
  match m.find? (fun p => p.1 == k) with
  | some _ => m.map (fun p =>
      if p.1 == k then (p.1, if t ∈ p.2 then p.2 else p.2 ++ [t]) else p)
  | none => m ++ [(k, [t])]

/-- Recursion of `LevelConstraint.check` with the accumulated per-level
slot sets made explicit. -/
def levelCheckGo (seen : List (Int × List TimeSlot)) :
    List Variable → List ConstraintViolation
  | [] => []
  | v :: rest =>
    if v.is_assigned then
      match v.assigned_time with
      | some t =>
        let cur := levelTimesGet seen v.level
        (if cur.any (fun s => t.overlaps s) then
          [{ constraint_type := "level_time_conflict",
             description := "Time conflict in level " ++ toString v.level,
             «variables» := [v], severity := 1 }]
        else []) ++ levelCheckGo (levelTimesAdd seen v.level t) rest
      | none => levelCheckGo seen rest
    else levelCheckGo seen rest

/-- Embedding of `LevelConstraint.check`. -/
def levelCheck (vars : List Variable) : List ConstraintViolation :=
  levelCheckGo [] vars

/-- `LevelRequirementConstraint.MAX_DAILY_HOURS`. -/
def MAX_DAILY_HOURS : ℚ := 6

/-- Duration of a slot in hours as computed by
`LevelRequirementConstraint.check`:
`(end.hour - start.hour) + (end.minute - start.minute) / 60`. -/
def slotHours (s : TimeSlot) : ℚ :=
  ((s.end_time.hour : ℚ) - (s.start_time.hour : ℚ)) +
    ((s.end_time.minute : ℚ) - (s.start_time.minute : ℚ)) / 60

/-- Recursion of `LevelRequirementConstraint.check` with the accumulated
per-(level, day) hour counts represented as a function defaulting to 0
(the dict starts each missing key at 0). -/
def lrGo (m : Int → String → ℚ) : List Variable → List ConstraintViolation
  | [] => []
  | v :: rest =>
    if v.is_assigned then
      match v.assigned_time with
      | some t =>
        let newVal := m v.level t.day + slotHours t
        let m' := fun l dd => if l = v.level ∧ dd = t.day then newVal else m l dd
        (if newVal > MAX_DAILY_HOURS then
          [{ constraint_type := "max_hours_exceeded",
             description := "Level " ++ toString v.level ++
               " exceeds 6 hours on " ++ t.day,
             «variables» := [v], severity := 4/5 }]
        else []) ++ lrGo m' rest
      | none => lrGo m rest
    else lrGo m rest

/-- Embedding of `LevelRequirementConstraint.check` from
`src/src/csp/specific_constraints.py`; the domain argument is unused by
the source. -/
def LevelRequirementConstraint.check (d : Domain) (vars : List Variable) :
    List ConstraintViolation :=
  lrGo (fun _ _ => 0) vars

/-- The registry of built-in constraints the claims exercise. -/
inductive Constraint where
  | noOverlap
  | roomType
  | levelKind
  | levelRequirement
deriving DecidableEq, Repr

/-- Dispatch of the `check` method over the constraint registry. -/
def Constraint.check : Constraint → Domain → List Variable → List ConstraintViolation
  | .noOverlap, _, vars => noOverlapCheck vars
  | .roomType, d, vars => roomTypeCheck d vars
  | .levelKind, _, vars => levelCheck vars
  | .levelRequirement, d, vars => LevelRequirementConstraint.check d vars

/-- Embedding of `ConstraintManager`: the two registered lists. -/
structure ConstraintManager where
  hard : List Constraint
  soft : List Constraint
deriving DecidableEq, Repr

/-- The manager built by `ConstraintManager.__init__`: three hard
constraints, and an empty soft list. -/
def defaultConstraintManager : ConstraintManager :=
  { hard := [.noOverlap, .roomType, .levelKind], soft := [] }

/-- Embedding of `ConstraintManager.check_assignment`: all hard checks in
registration order, then all soft checks. -/
def ConstraintManager.check_assignment (m : ConstraintManager) (d : Domain)
    (vars : List Variable) : List ConstraintViolation :=
  (m.hard.map (fun c => c.check d vars)).flatten ++
    (m.soft.map (fun c => c.check d vars)).flatten

/-- The slot contributed by a variable to the (level, day) hour count,
when the variable passes the guard of `LevelRequirementConstraint.check`
and belongs to that level and day. -/
def countedSlot (v : Variable) (l : Int) (dd : String) : Option TimeSlot :=
  if v.is_assigned then
    match v.assigned_time with
    | some t => if v.level = l ∧ t.day = dd then some t else none
    | none => none
  else none

/-- Cumulative class duration of a level on a day over a variable list. -/
def totalLevelDayHours (vars : List Variable) (l : Int) (dd : String) : ℚ :=
  (vars.filterMap (fun v => (countedSlot v l dd).map slotHours)).sum

theorem totalLevelDayHours_cons_none (v : Variable) (rest : List Variable)
    (l : Int) (dd : String) (h : countedSlot v l dd = none) :
    totalLevelDayHours (v :: rest) l dd = totalLevelDayHours rest l dd := by
  simp [totalLevelDayHours, List.filterMap_cons, h]

theorem totalLevelDayHours_cons_some (v : Variable) (rest : List Variable)
    (l : Int) (dd : String) (t : TimeSlot) (h : countedSlot v l dd = some t) :
    totalLevelDayHours (v :: rest) l dd =
      slotHours t + totalLevelDayHours rest l dd := by
  simp [totalLevelDayHours, List.filterMap_cons, h]

theorem totalLevelDayHours_eq_zero (rest : List Variable) (l : Int)
    (dd : String) (h : ∀ w ∈ rest, countedSlot w l dd = none) :
    totalLevelDayHours rest l dd = 0 := by
  induction rest with
  | nil => rfl
  | cons w ws ih =>
    rw [totalLevelDayHours_cons_none w ws l dd (h w (List.mem_cons_self w ws))]
    exact ih (fun x hx => h x (List.mem_cons_of_mem w hx))

/-- If the running (level, day) count plus the remaining contributions
exceeds the cap and some remaining variable contributes, then
`LevelRequirementConstraint.check` emits a `max_hours_exceeded` violation
of severity 0.8 for that level and day. -/
theorem lrGo_emits (l : Int) (dd : String) :
    ∀ (vars : List Variable) (m : Int → String → ℚ),
      (∃ v ∈ vars, (countedSlot v l dd).isSome) →
      MAX_DAILY_HOURS < m l dd + totalLevelDayHours vars l dd →
      ∃ viol ∈ lrGo m vars,
        viol.constraint_type = "max_hours_exceeded" ∧ viol.severity = 4/5 ∧
        ∃ v, viol.«variables» = [v] ∧ v.level = l ∧
          ∃ t, v.assigned_time = some t ∧ t.day = dd := by
  intro vars
  induction vars with
  | nil =>
    rintro m ⟨v, hv, _⟩ _
    cases hv
  | cons v rest ih =>
    intro m hex hgt
    by_cases ha : v.is_assigned
    · cases ht : v.assigned_time with
      | none =>
        have hcnone : countedSlot v l dd = none := by
          simp [countedSlot, ha, ht]
        rw [totalLevelDayHours_cons_none v rest l dd hcnone] at hgt
        simp only [lrGo, ha, if_true, ht]
        apply ih m
        · rcases hex with ⟨w, hw, hws⟩
          rcases List.mem_cons.mp hw with rfl | hw'
          · rw [hcnone] at hws; cases hws
          · exact ⟨w, hw', hws⟩
        · exact hgt
      | some t =>
        by_cases hld : v.level = l ∧ t.day = dd
        · have hc : countedSlot v l dd = some t := by
            simp [countedSlot, ha, ht, hld]
          rw [totalLevelDayHours_cons_some v rest l dd t hc] at hgt
          simp only [lrGo, ha, if_true, ht]
          set newVal := m v.level t.day + slotHours t with hnv
          have hmval : m v.level t.day = m l dd := by rw [hld.1, hld.2]
          by_cases hover : newVal > MAX_DAILY_HOURS
          · refine ⟨⟨"max_hours_exceeded", "Level " ++ toString v.level ++ " exceeds 6 hours on " ++ t.day, [v], 4/5⟩,
              List.mem_append_left _ (by simp [hover]), rfl, rfl,
              v, rfl, hld.1, t, ht, hld.2⟩
          · have hrest : ∃ w ∈ rest, (countedSlot w l dd).isSome := by
              by_contra hno
              push_neg at hno
              have hzero : totalLevelDayHours rest l dd = 0 := by
                apply totalLevelDayHours_eq_zero
                intro w hw
                cases hcw : countedSlot w l dd with
                | none => rfl
                | some u =>
                  have hcontra := hno w hw
                  rw [hcw] at hcontra
                  simp at hcontra
              rw [hzero] at hgt
              exact hover (by rw [hnv, hmval]; linarith)
            have hm' : (fun l' dd' =>
                if l' = v.level ∧ dd' = t.day then newVal else m l' dd') l dd
                = newVal := by
              simp [hld.1.symm, hld.2.symm]
            have hgt' : MAX_DAILY_HOURS <
                (fun l' dd' =>
                  if l' = v.level ∧ dd' = t.day then newVal else m l' dd') l dd +
                totalLevelDayHours rest l dd := by
              rw [hm', hnv, hmval]
              linarith
            rcases ih (fun l' dd' =>
                if l' = v.level ∧ dd' = t.day then newVal else m l' dd')
                hrest hgt' with ⟨viol, hmem, hprops⟩
            exact ⟨viol, List.mem_append_right _ hmem, hprops⟩
        · have hc : countedSlot v l dd = none := by
            simp only [countedSlot, ha, if_true, ht]
            simp [hld]
          rw [totalLevelDayHours_cons_none v rest l dd hc] at hgt
          simp only [lrGo, ha, if_true, ht]
          have hm' : (fun l' dd' =>
              if l' = v.level ∧ dd' = t.day then m v.level t.day + slotHours t
              else m l' dd') l dd = m l dd := by
            have hne : ¬(l = v.level ∧ dd = t.day) := by
              intro hcontra
              exact hld ⟨hcontra.1.symm, hcontra.2.symm⟩
            simp [hne]
          have hrest : ∃ w ∈ rest, (countedSlot w l dd).isSome := by
            rcases hex with ⟨w, hw, hws⟩
            rcases List.mem_cons.mp hw with rfl | hw'
            · rw [hc] at hws; cases hws
            · exact ⟨w, hw', hws⟩
          have hgt' : MAX_DAILY_HOURS <
              (fun l' dd' =>
                if l' = v.level ∧ dd' = t.day then m v.level t.day + slotHours t
                else m l' dd') l dd +
              totalLevelDayHours rest l dd := by
            rw [hm']
            linarith
          rcases ih (fun l' dd' =>
              if l' = v.level ∧ dd' = t.day then m v.level t.day + slotHours t
              else m l' dd') hrest hgt' with ⟨viol, hmem, hprops⟩
          exact ⟨viol, List.mem_append_right _ hmem, hprops⟩
    · have hcnone : countedSlot v l dd = none := by
        simp [countedSlot, ha]
      rw [totalLevelDayHours_cons_none v rest l dd hcnone] at hgt
      simp only [lrGo, ha, if_false]
      apply ih m
      · rcases hex with ⟨w, hw, hws⟩
        rcases List.mem_cons.mp hw with rfl | hw'
        · rw [hcnone] at hws; cases hws
        · exact ⟨w, hw', hws⟩
      · exact hgt

/-- A variable holding a 7.5-hour Monday slot, exceeding the 6-hour cap. -/
def v5 : Variable :=
  { course_id := "CSC250", level := 1,
    requirements := ⟨"Lecture", 10, false, false⟩,
    assigned_time := some ⟨"Monday", ⟨9, 0⟩, ⟨16, 30⟩⟩,
    assigned_room := some "R9", assigned_instructor := some "I9" }

theorem totalLevelDayHours_v5 :
    MAX_DAILY_HOURS < totalLevelDayHours [v5] 1 "Monday" := by
  have : totalLevelDayHours [v5] 1 "Monday" = 15/2 := by
    simp [totalLevelDayHours, countedSlot, v5, Variable.is_assigned,
      optSlotTruthy, optStrTruthy, slotHours]
    norm_num
  rw [this]
  norm_num [MAX_DAILY_HOURS]

/-- C5 counterexample: level 1 accumulates 7.5 hours on Monday, yet the
default constraint manager's `check_assignment` returns no violation at
all, because `ConstraintManager.__init__` registers an empty soft list and
`LevelRequirementConstraint` is never wired in. -/
theorem C5_counterexample :
    MAX_DAILY_HOURS < totalLevelDayHours [v5] 1 "Monday" ∧
    ConstraintManager.check_assignment defaultConstraintManager {} [v5] = [] := by
  exact ⟨totalLevelDayHours_v5, rfl⟩

/-- C5 amended: `check_assignment` runs all hard constraints then all soft
constraints, but the default manager's soft list is empty, so the daily
cap is never reported through it; `LevelRequirementConstraint.check`
itself does emit a severity-0.8 `max_hours_exceeded` violation for every
(level, day) whose cumulative duration exceeds `MAX_DAILY_HOURS` = 6. -/
theorem C5_level_requirement_amended :
    defaultConstraintManager.soft = [] ∧
    ∀ (d : Domain) (vars : List Variable) (l : Int) (dd : String),
      MAX_DAILY_HOURS < totalLevelDayHours vars l dd →
      ∃ viol ∈ LevelRequirementConstraint.check d vars,
        viol.constraint_type = "max_hours_exceeded" ∧ viol.severity = 4/5 ∧
        ∃ v, viol.«variables» = [v] ∧ v.level = l ∧
          ∃ t, v.assigned_time = some t ∧ t.day = dd := by
  refine ⟨rfl, ?_⟩
  intro d vars l dd hgt
  have hex : ∃ v ∈ vars, (countedSlot v l dd).isSome := by
    by_contra hno
    push_neg at hno
    have hzero : totalLevelDayHours vars l dd = 0 := by
      apply totalLevelDayHours_eq_zero
      intro w hw
      cases hcw : countedSlot w l dd with
      | none => rfl
      | some u =>
        have hcontra := hno w hw
        rw [hcw] at hcontra
        simp at hcontra
    rw [hzero] at hgt
    exact absurd hgt (by norm_num [MAX_DAILY_HOURS])
  exact lrGo_emits l dd vars (fun _ _ => 0) hex (by simpa using hgt)

/-- Witness for the amended C5 at the concrete 7.5-hour variable. -/
theorem C5_level_requirement_amended_witness :
    MAX_DAILY_HOURS < totalLevelDayHours [v5] 1 "Monday" ∧
    ∃ viol ∈ LevelRequirementConstraint.check {} [v5],
      viol.constraint_type = "max_hours_exceeded" ∧ viol.severity = 4/5 ∧
      ∃ v, viol.«variables» = [v] ∧ v.level = 1 ∧
        ∃ t, v.assigned_time = some t ∧ t.day = "Monday" :=
  ⟨totalLevelDayHours_v5,
    C5_level_requirement_amended.2 {} [v5] 1 "Monday" totalLevelDayHours_v5⟩

/-! ### Level scheduler (`src/src/generator/scheduler.py`) -/

/-- Python exceptions the embedded code can raise. -/
inductive PyExc where
  | keyError (key : String)
  | typeError (msg : String)
  | valueError (msg : String)
  | nameError (msg : String)
  | indexError (msg : String)
deriving DecidableEq, Repr

/-- Python `str(e)` on an exception (`KeyError` renders the quoted key). -/
def PyExc.str : PyExc → String
  | .keyError k => "'" ++ k ++ "'"
  | .typeError m => m
  | .valueError m => m
  | .nameError m => m
  | .indexError m => m

/-- Embedding of `SchedulingResult`. -/
structure SchedulingResult where
  success : Bool
  «variables» : Option (List Variable) := none
  error : Option String := none
deriving DecidableEq, Repr

/-- The `scheduled_resources` tracking dict: per-type sets of
(resource id, slot) pairs currently taken. -/
structure ScheduledResources where
  rooms : List (String × TimeSlot) := []
  instructors : List (String × TimeSlot) := []
deriving DecidableEq, Repr

/-- Sort key of `_sort_by_constraints`: negated room-type length, negated
min capacity, negated candidate-time count. -/
def schedKey (v : Variable) : Int × Int × Int :=
  (-(v.requirements.room_type.length : Int), -v.requirements.min_capacity,
    -(v.possible_times.length : Int))

/-- Strict lexicographic order on the sort keys. -/
def tripleLt (a b : Int × Int × Int) : Bool :=
  if a.1 < b.1 then true
  else if a.1 = b.1 then
    if a.2.1 < b.2.1 then true
    else if a.2.1 = b.2.1 then decide (a.2.2 < b.2.2)
    else false
  else false

/-- Stable insertion into a sorted list: the new element goes after every
element it does not strictly precede, matching Python's stable sort. -/
def insSorted {α : Type} (lt : α → α → Bool) (x : α) : List α → List α
  | [] => [x]
  | y :: ys => if lt x y then x :: y :: ys else y :: insSorted lt x ys

/-- Python `sorted` with a comparison (stable). -/
def pySorted {α : Type} (lt : α → α → Bool) (xs : List α) : List α :=
  xs.foldl (fun acc x => insSorted lt x acc) []

/-- Embedding of `LevelScheduler._sort_by_constraints`. -/
def LevelScheduler.sort_by_constraints (vars : List Variable) : List Variable :=
  pySorted (fun a b => tripleLt (schedKey a) (schedKey b)) vars

/-- Embedding of `LevelScheduler._get_level_conflicts`: the source is a
stub that always returns the empty set. -/
def LevelScheduler.get_level_conflicts (level : Int) : List TimeSlot := []

/-- Embedding of `LevelScheduler._filter_available_rooms`: the dict lookup
`self.domain.rooms[room]` raises `KeyError` for an unknown id. -/
def filter_available_rooms (dom : Domain) (rooms : List String)
    (req : ResourceRequirements) : Except PyExc (List String) :=
  match rooms with
  | [] => .ok []
  | r :: rest =>
    match dom.getRoom r with
    | none => .error (.keyError r)
    | some ra =>
      match filter_available_rooms dom rest req with
      | .error e => .error e
      | .ok tail =>
        .ok (if ra.room_type == req.room_type ∧ ra.capacity ≥ req.min_capacity
          then r :: tail else tail)

/-- Embedding of `LevelScheduler._filter_available_instructors`. -/
def filter_available_instructors (dom : Domain) (instrs : List String) :
    Except PyExc (List String) :=
  match instrs with
  | [] => .ok []
  | i :: rest =>
    match dom.getInstructor i with
    | none => .error (.keyError i)
    | some ia =>
      match filter_available_instructors dom rest with
      | .error e => .error e
      | .ok tail =>
        .ok (if ia.max_hours_per_day > 0 then i :: tail else tail)

/-- Innermost loop of `_schedule_variable`: the first instructor not
booked at the slot (`_is_resource_available` is the `in` test on the
tracking set). -/
def tryInstructors (st : ScheduledResources) (t : TimeSlot) :
    List String → Option String
  | [] => none
  | i :: rest =>
    if (i, t) ∈ st.instructors then tryInstructors st t rest else some i

/-- Middle loop of `_schedule_variable`: the first free room for which a
free instructor exists at the slot. -/
def tryRooms (st : ScheduledResources) (t : TimeSlot) (instrs : List String) :
    List String → Option (String × String)
  | [] => none
  | r :: rest =>
    if (r, t) ∈ st.rooms then tryRooms st t instrs rest
    else
      match tryInstructors st t instrs with
      | some i => some (r, i)
      | none => tryRooms st t instrs rest

/-- Outer loop of `_schedule_variable` over the candidate times. -/
def tryTimes (st : ScheduledResources) (rooms instrs : List String) :
    List TimeSlot → Option (TimeSlot × String × String)
  | [] => none
  | t :: ts =>
    match tryRooms st t instrs rooms with
    | some (r, i) => some (t, r, i)
    | none => tryTimes st rooms instrs ts

/-- Embedding of `LevelScheduler._schedule_variable`: filter the candidate
sets, take the first acceptable (time, room, instructor) triple, assign it
and record the bookings. -/
def LevelScheduler.schedule_variable (dom : Domain) (st : ScheduledResources)
    (v : Variable) : Except PyExc (Bool × Variable × ScheduledResources) :=
  match filter_available_rooms dom v.possible_rooms v.requirements with
  | .error e => .error e
  | .ok available_rooms =>
    match filter_available_instructors dom v.possible_instructors with
    | .error e => .error e
    | .ok available_instructors =>
      match tryTimes st available_rooms available_instructors
          (v.possible_times.filter
            (fun t => !(LevelScheduler.get_level_conflicts v.level).contains t)) with
      | some (t, r, i) =>
        .ok (true, v.assign t r i,
          { rooms := (r, t) :: st.rooms, instructors := (i, t) :: st.instructors })
      | none => .ok (false, v, st)

/-- One attempt of `schedule_level`: schedule each variable in order,
breaking at the first failure. -/
def scheduleVarsLoop (dom : Domain) (st : ScheduledResources) :
    List Variable → Except PyExc (Bool × List Variable × ScheduledResources)
  | [] => .ok (true, [], st)
  | v :: rest =>
    match LevelScheduler.schedule_variable dom st v with
    | .error e => .error e
    | .ok (ok1, v', st') =>
      if ok1 then
        match scheduleVarsLoop dom st' rest with
        | .error e => .error e
        | .ok (b, rest', st'') => .ok (b, v' :: rest', st'')
      else .ok (false, v' :: rest, st')

/-- The retry loop of `schedule_level`: resource tracking is reset per
attempt and all variables are unassigned before a retry. -/
def attemptLoop (dom : Domain) (level : Int) (maxAtt : Nat)
    (sortedVars : List Variable) : Nat → Except PyExc SchedulingResult
  | 0 =>
    .ok { success := false, error := some ("Failed to schedule level " ++ toString level ++ " after " ++ toString maxAtt ++ " attempts") }
  | n + 1 =>
    match scheduleVarsLoop dom {} sortedVars with
    | .error e => .error e
    | .ok (success, vars', _) =>
      if success then .ok { success := true, «variables» := some vars' }
      else attemptLoop dom level maxAtt (vars'.map Variable.unassign) n

/-- Embedding of `LevelScheduler.schedule_level`: sort, retry up to
`max_attempts`, and convert any raised exception into an error result. -/
def LevelScheduler.schedule_level (dom : Domain) (level : Int)
    (vars : List Variable) (max_attempts : Nat) : SchedulingResult :=
  match attemptLoop dom level max_attempts
      (LevelScheduler.sort_by_constraints vars) max_attempts with
  | .ok r => r
  | .error e => { success := false, error := some ("Scheduling error: " ++ e.str) }

/-- A 30-seat lecture room record with no booked slots. -/
def roomLecture (id : String) : RoomAvailability :=
  { room_id := id, room_type := "Lecture", capacity := 30 }

/-- Domain with one slot, two lecture rooms, two instructors. -/
def d2 : Domain :=
  { time_slots := [mondaySlot],
    rooms := [("R1", roomLecture "R1"), ("R2", roomLecture "R2")],
    instructors := [("I1", { instructor_id := "I1" }),
      ("I2", { instructor_id := "I2" })] }

/-- Level-1 course wanting the Monday slot in room R1 with instructor I1. -/
def vA : Variable :=
  { course_id := "CSC111", level := 1,
    requirements := ⟨"Lecture", 30, false, false⟩,
    possible_times := [mondaySlot], possible_rooms := ["R1"],
    possible_instructors := ["I1"] }

/-- Level-1 course wanting the same Monday slot in room R2 with I2. -/
def vB : Variable :=
  { course_id := "CSC112", level := 1,
    requirements := ⟨"Lecture", 30, false, false⟩,
    possible_times := [mondaySlot], possible_rooms := ["R2"],
    possible_instructors := ["I2"] }

/-- C2 counterexample: `schedule_level` succeeds while giving two distinct
variables of the same level the identical (hence overlapping) time slot;
the level-conflict filter of `_schedule_variable` subtracts the stub
`_get_level_conflicts` result, which is always empty. -/
theorem C2_counterexample :
    (LevelScheduler.schedule_level d2 1 [vA, vB] 3).success = true ∧
    ∃ a b, (LevelScheduler.schedule_level d2 1 [vA, vB] 3).«variables» =
        some [a, b] ∧
      a.level = b.level ∧ a.course_id ≠ b.course_id ∧
      ∃ sa sb, a.assigned_time = some sa ∧ b.assigned_time = some sb ∧
        sa.overlaps sb = true := by
  refine ⟨by decide, vA.assign mondaySlot "R1" "I1",
    vB.assign mondaySlot "R2" "I2", by decide, by decide, by decide,
    mondaySlot, mondaySlot, by decide, by decide, by decide⟩

theorem tryInstructors_some (st : ScheduledResources) (t : TimeSlot) :
    ∀ (instrs : List String) (i : String),
      tryInstructors st t instrs = some i → (i, t) ∉ st.instructors := by
  intro instrs
  induction instrs with
  | nil => intro i h; cases h
  | cons j rest ih =>
    intro i h
    by_cases hb : (j, t) ∈ st.instructors
    · simp only [tryInstructors, hb, if_true] at h
      exact ih i h
    · simp only [tryInstructors, hb, if_false] at h
      cases h
      exact hb

theorem tryRooms_some (st : ScheduledResources) (t : TimeSlot)
    (instrs : List String) :
    ∀ (rooms : List String) (r i : String),
      tryRooms st t instrs rooms = some (r, i) →
      (r, t) ∉ st.rooms ∧ (i, t) ∉ st.instructors := by
  intro rooms
  induction rooms with
  | nil => intro r i h; cases h
  | cons q rest ih =>
    intro r i h
    by_cases hb : (q, t) ∈ st.rooms
    · simp only [tryRooms, hb, if_true] at h
      exact ih r i h
    · simp only [tryRooms, hb, if_false] at h
      cases hi : tryInstructors st t instrs with
      | none => rw [hi] at h; exact ih r i h
      | some j =>
        rw [hi] at h
        cases h
        exact ⟨hb, tryInstructors_some st t instrs _ hi⟩

theorem tryTimes_some (st : ScheduledResources) (rooms instrs : List String) :
    ∀ (times : List TimeSlot) (t : TimeSlot) (r i : String),
      tryTimes st rooms instrs times = some (t, r, i) →
      (r, t) ∉ st.rooms ∧ (i, t) ∉ st.instructors := by
  intro times
  induction times with
  | nil => intro t r i h; cases h
  | cons u rest ih =>
    intro t r i h
    cases hr : tryRooms st u instrs rooms with
    | none =>
      simp only [tryTimes, hr] at h
      exact ih t r i h
    | some p =>
      simp only [tryTimes, hr] at h
      obtain ⟨r0, i0⟩ := p
      cases h
      exact tryRooms_some st u instrs rooms r0 i0 hr

/-- Shape of a successful `_schedule_variable` step: the variable is
assigned some triple whose room and instructor bookings were fresh, and
both bookings are pushed onto the tracking sets. -/
theorem schedule_variable_ok_true (dom : Domain) (st : ScheduledResources)
    (v v' : Variable) (st' : ScheduledResources)
    (h : LevelScheduler.schedule_variable dom st v = .ok (true, v', st')) :
    ∃ t r i, v' = v.assign t r i ∧
      (r, t) ∉ st.rooms ∧ (i, t) ∉ st.instructors ∧
      st'.rooms = (r, t) :: st.rooms ∧
      st'.instructors = (i, t) :: st.instructors := by
  unfold LevelScheduler.schedule_variable at h
  cases hfr : filter_available_rooms dom v.possible_rooms v.requirements with
  | error e => simp [hfr] at h
  | ok rms =>
    simp only [hfr] at h
    cases hfi : filter_available_instructors dom v.possible_instructors with
    | error e => simp [hfi] at h
    | ok ins =>
      simp only [hfi] at h
      cases htr : tryTimes st rms ins (v.possible_times.filter
          (fun t => !(LevelScheduler.get_level_conflicts v.level).contains t)) with
      | none =>
        simp only [htr] at h
        simp at h
      | some tri =>
        simp only [htr] at h
        obtain ⟨t, r, i⟩ := tri
        simp only [Except.ok.injEq, Prod.mk.injEq, true_and] at h
        obtain ⟨hv', hst'⟩ := h
        rcases tryTimes_some st rms ins _ t r i htr with ⟨h1, h2⟩
        exact ⟨t, r, i, hv'.symm, h1, h2, by rw [← hst'], by rw [← hst']⟩

/-- The pairwise separation property the scheduler does guarantee: no two
returned variables share a (room, slot) booking or an (instructor, slot)
booking. -/
def distinctBookings (a b : Variable) : Prop :=
  ¬(a.assigned_room = b.assigned_room ∧ a.assigned_time = b.assigned_time) ∧
  ¬(a.assigned_instructor = b.assigned_instructor ∧
      a.assigned_time = b.assigned_time)

/-- Invariant of one successful scheduling pass: every output variable
carries a full assignment whose bookings were absent from the incoming
tracking state, and output bookings are pairwise distinct. -/
theorem scheduleVarsLoop_ok_true (dom : Domain) :
    ∀ (vars : List Variable) (st : ScheduledResources)
      (out : List Variable) (st' : ScheduledResources),
      scheduleVarsLoop dom st vars = .ok (true, out, st') →
      (∀ w ∈ out, ∃ t0 r0 i0, w.assigned_time = some t0 ∧
        w.assigned_room = some r0 ∧ w.assigned_instructor = some i0 ∧
        (r0, t0) ∉ st.rooms ∧ (i0, t0) ∉ st.instructors) ∧
      out.Pairwise distinctBookings := by
  intro vars
  induction vars with
  | nil =>
    intro st out st' h
    simp only [scheduleVarsLoop] at h
    cases h
    exact ⟨(by intro w hw; cases hw), List.Pairwise.nil⟩
  | cons v rest ih =>
    intro st out st' h
    simp only [scheduleVarsLoop] at h
    cases hsv : LevelScheduler.schedule_variable dom st v with
    | error e => rw [hsv] at h; cases h
    | ok res =>
      rw [hsv] at h
      obtain ⟨ok1, v', st1⟩ := res
      cases ok1 with
      | false =>
        simp only [Bool.false_eq_true, if_false] at h
        cases h
      | true =>
        simp only [if_true] at h
        cases hrec : scheduleVarsLoop dom st1 rest with
        | error e => rw [hrec] at h; cases h
        | ok res2 =>
          rw [hrec] at h
          obtain ⟨b, rest', st2⟩ := res2
          simp only [Except.ok.injEq, Prod.mk.injEq] at h
          obtain ⟨hb, hout, hst⟩ := h
          subst hb
          subst hout
          subst hst
          rcases schedule_variable_ok_true dom st v v' st1 hsv with
            ⟨t, r, i, hv', hfr, hfi, hr1, hi1⟩
          rcases ih st1 rest' _ hrec with ⟨hall, hpw⟩
          have hfresh : ∀ w ∈ rest', ∃ t0 r0 i0,
              w.assigned_time = some t0 ∧ w.assigned_room = some r0 ∧
              w.assigned_instructor = some i0 ∧
              (r0, t0) ≠ (r, t) ∧ (r0, t0) ∉ st.rooms ∧
              (i0, t0) ≠ (i, t) ∧ (i0, t0) ∉ st.instructors := by
            intro w hw
            rcases hall w hw with ⟨t0, r0, i0, ha, hbq, hc, hd, he⟩
            rw [hr1] at hd
            rw [hi1] at he
            rw [List.mem_cons, not_or] at hd he
            exact ⟨t0, r0, i0, ha, hbq, hc, hd.1, hd.2, he.1, he.2⟩
          constructor
          · intro w hw
            rcases List.mem_cons.mp hw with rfl | hw'
            · exact ⟨t, r, i, by rw [hv']; rfl, by rw [hv']; rfl,
                by rw [hv']; rfl, hfr, hfi⟩
            · rcases hfresh w hw' with ⟨t0, r0, i0, ha, hbq, hc, _, hd, _, he⟩
              exact ⟨t0, r0, i0, ha, hbq, hc, hd, he⟩
          · refine List.Pairwise.cons ?_ hpw
            intro w hw
            rcases hfresh w hw with ⟨t0, r0, i0, ha, hbq, hc, hdne, _, hine, _⟩
            have hvr : v'.assigned_room = some r := by rw [hv']; rfl
            have hvt : v'.assigned_time = some t := by rw [hv']; rfl
            have hvi : v'.assigned_instructor = some i := by rw [hv']; rfl
            constructor
            · rintro ⟨hre, hte⟩
              rw [hvr, hbq] at hre
              rw [hvt, ha] at hte
              apply hdne
              rw [Option.some_inj.mp hre.symm, Option.some_inj.mp hte.symm]
            · rintro ⟨hie, hte⟩
              rw [hvi, hc] at hie
              rw [hvt, ha] at hte
              apply hine
              rw [Option.some_inj.mp hie.symm, Option.some_inj.mp hte.symm]

/-- The retry loop preserves the per-attempt invariant: any `ok` result
with `success = true` carries a variable list with full assignments and
pairwise-distinct bookings. -/
theorem attemptLoop_ok_invariant (dom : Domain) (level : Int) (maxAtt : Nat) :
    ∀ (fuel : Nat) (sv : List Variable) (r : SchedulingResult)
      (out : List Variable),
      attemptLoop dom level maxAtt sv fuel = .ok r →
      r.success = true → r.«variables» = some out →
      (∀ w ∈ out, ∃ t0 r0 i0, w.assigned_time = some t0 ∧
        w.assigned_room = some r0 ∧ w.assigned_instructor = some i0) ∧
      out.Pairwise distinctBookings := by
  intro fuel
  induction fuel with
  | zero =>
    intro sv r out h hs hv
    simp only [attemptLoop, Except.ok.injEq] at h
    rw [← h] at hs
    simp at hs
  | succ n ih =>
    intro sv r out h hs hv
    simp only [attemptLoop] at h
    cases hsl : scheduleVarsLoop dom {} sv with
    | error e => rw [hsl] at h; cases h
    | ok res =>
      rw [hsl] at h
      obtain ⟨succRes, vars', st2⟩ := res
      cases succRes with
      | true =>
        simp only [if_true, Except.ok.injEq] at h
        rw [← h] at hv
        have hout : vars' = out := by simpa using hv
        subst hout
        rcases scheduleVarsLoop_ok_true dom sv {} vars' st2 hsl with ⟨hall, hpw⟩
        refine ⟨?_, hpw⟩
        intro w hw
        rcases hall w hw with ⟨t0, r0, i0, ha, hb, hc, _, _⟩
        exact ⟨t0, r0, i0, ha, hb, hc⟩
      | false =>
        simp only [Bool.false_eq_true, if_false] at h
        exact ih _ r out h hs hv

/-- C2 amended: a successful `schedule_level` guarantees every returned
variable holds a full (time, room, instructor) assignment and that no two
returned variables share an identical (room, slot) or (instructor, slot)
booking; it does not rule out overlapping (even equal) slots within the
level when rooms and instructors differ. -/
theorem C2_schedule_level_amended (dom : Domain) (level : Int)
    (vars : List Variable) (ma : Nat) (out : List Variable)
    (hs : (LevelScheduler.schedule_level dom level vars ma).success = true)
    (hv : (LevelScheduler.schedule_level dom level vars ma).«variables» =
      some out) :
    (∀ w ∈ out, ∃ t0 r0 i0, w.assigned_time = some t0 ∧
      w.assigned_room = some r0 ∧ w.assigned_instructor = some i0) ∧
    out.Pairwise distinctBookings := by
  unfold LevelScheduler.schedule_level at hs hv
  cases hal : attemptLoop dom level ma
      (LevelScheduler.sort_by_constraints vars) ma with
  | error e =>
    rw [hal] at hs
    simp at hs
  | ok r =>
    rw [hal] at hs hv
    exact attemptLoop_ok_invariant dom level ma ma _ r out hal hs hv

/-- Witness for the amended C2 at the successful concrete run of the
counterexample input. -/
theorem C2_schedule_level_amended_witness :
    ((LevelScheduler.schedule_level d2 1 [vA, vB] 3).success = true ∧
      (LevelScheduler.schedule_level d2 1 [vA, vB] 3).«variables» =
        some [vA.assign mondaySlot "R1" "I1", vB.assign mondaySlot "R2" "I2"]) ∧
    ((∀ w ∈ [vA.assign mondaySlot "R1" "I1", vB.assign mondaySlot "R2" "I2"],
        ∃ t0 r0 i0, w.assigned_time = some t0 ∧
          w.assigned_room = some r0 ∧ w.assigned_instructor = some i0) ∧
      List.Pairwise distinctBookings
        [vA.assign mondaySlot "R1" "I1", vB.assign mondaySlot "R2" "I2"]) :=
  ⟨⟨by decide, by decide⟩,
    C2_schedule_level_amended d2 1 [vA, vB] 3 _ (by decide) (by decide)⟩

/-! ### Solution optimizer (`src/src/csp/optimization.py`); Python floats
are modelled as rationals. -/

/-- Embedding of `OptimizationMetrics`. -/
structure OptimizationMetrics where
  gaps_score : ℚ
  preference_score : ℚ
  distribution_score : ℚ
  total_score : ℚ
deriving DecidableEq, Repr

/-- Append a slot to a level's slot list (Python `list.append` on the
grouping dict of `_calculate_gaps_score`). -/
def levelSlotsAppend (m : List (Int × List TimeSlot)) (k : Int) (t : TimeSlot) :
    List (Int × List TimeSlot) :=
  match m.find? (fun p => p.1 == k) with
  | some _ => m.map (fun p => if p.1 == k then (p.1, p.2 ++ [t]) else p)
  | none => m ++ [(k, [t])]

/-- Group the assigned times by level in iteration order. -/
def gapsGroup (vars : List Variable) : List (Int × List TimeSlot) :=
  vars.foldl (fun m v =>
    if v.is_assigned then
      match v.assigned_time with
      | some t => levelSlotsAppend m v.level t
      | none => m
    else m) []

/-- The tuple order (day, start_time) used to sort a level's slots. -/
def slotKeyLt (a b : TimeSlot) : Bool :=
  if a.day < b.day then true
  else if a.day = b.day then decide (a.start_time.toMin < b.start_time.toMin)
  else false

/-- Sum of positive gaps (in hours) between consecutive same-day slots. -/
def gapsOfSorted : List TimeSlot → ℚ
  | [] => 0
  | [_] => 0
  | a :: b :: rest =>
    (if a.day = b.day then
      (if ((b.start_time.hour : Int) * 60 + b.start_time.minute) -
          ((a.end_time.hour : Int) * 60 + a.end_time.minute) > 0 then
        ((((b.start_time.hour : Int) * 60 + b.start_time.minute) -
          ((a.end_time.hour : Int) * 60 + a.end_time.minute) : Int) : ℚ) / 60
      else 0)
    else 0) + gapsOfSorted (b :: rest)

/-- Embedding of `SolutionOptimizer._calculate_gaps_score`. -/
def calculate_gaps_score (vars : List Variable) : ℚ :=
  ((gapsGroup vars).map (fun p => gapsOfSorted (pySorted slotKeyLt p.2))).sum

/-- Embedding of `SolutionOptimizer._calculate_preference_score`. -/
def calculate_preference_score (vars : List Variable) : ℚ :=
  let slots := vars.filterMap (fun v =>
    if v.is_assigned then v.assigned_time else none)
  let satisfied := (slots.filter (fun t =>
    9 ≤ t.start_time.hour ∧ t.start_time.hour ≤ 16)).length
  if slots.length > 0 then (satisfied : ℚ) / (slots.length : ℚ) else 0

/-- Increment a day's count (the `day_counts` dict). -/
def dayCountsAdd (m : List (String × Nat)) (d : String) : List (String × Nat) :=
  match m.find? (fun p => p.1 == d) with
  | some _ => m.map (fun p => if p.1 == d then (p.1, p.2 + 1) else p)
  | none => m ++ [(d, 1)]

/-- Embedding of `SolutionOptimizer._calculate_distribution_score`. -/
def calculate_distribution_score (vars : List Variable) : ℚ :=
  let day_counts := vars.foldl (fun m v =>
    if v.is_assigned then
      match v.assigned_time with
      | some t => dayCountsAdd m t.day
      | none => m
    else m) []
  if day_counts.isEmpty then 0
  else
    let n : ℚ := (day_counts.length : ℚ)
    let mean : ℚ := ((day_counts.map (fun p => (p.2 : ℚ))).sum) / n
    let variance : ℚ :=
      ((day_counts.map (fun p => ((p.2 : ℚ) - mean) ^ 2)).sum) / n
    1 / (1 + variance)

/-- Embedding of `SolutionOptimizer.score_solution`; the weights -0.4, 0.4
and 0.2 are taken as exact rationals. -/
def score_solution (vars : List Variable) : OptimizationMetrics :=
  let g := calculate_gaps_score vars
  let p := calculate_preference_score vars
  let ds := calculate_distribution_score vars
  { gaps_score := g, preference_score := p, distribution_score := ds,
    total_score := -(2/5) * g + (2/5) * p + (1/5) * ds }

/-! ### Solver (`src/src/csp/solver.py`)

The wall clock is abstracted: the embedding executes in zero model time,
so `solve` passes `elapsed = 0` to every frame while keeping the source's
`elapsed > timeout` check in place.  The optimiser's `best_score` starts
at negative infinity and is never written, modelled as `Option ℚ` with
`none` standing for -inf. -/

instance : Inhabited Variable :=
  ⟨{ course_id := "", level := 0, requirements := ⟨"", 0, false, false⟩ }⟩

/-- Embedding of `SolverStats`; `best_score` starts at +inf (`none`) and
is never written by the source. -/
structure SolverStats where
  runtime : ℚ := 0
  backtracks : Nat := 0
  assignments : Nat := 0
  solutions_found : Nat := 0
  best_score : Option ℚ := none
deriving DecidableEq, Repr

/-- Mutable state of one `Solver.solve` call: the working variables, the
shared Domain, the retained best solution and the collected solutions. -/
structure SState where
  vars : List Variable
  domain : Domain
  best_metrics : Option OptimizationMetrics := none
  best_solution : Option (List Variable) := none
  solutions : List (List Variable) := []
  stats : SolverStats := {}
deriving DecidableEq, Repr

/-- Comparison with the optimiser's `best_score` bar (`none` = -inf). -/
def gtBar (x : ℚ) : Option ℚ → Bool
  | none => true
  | some b => decide (x > b)

/-- The raw (score, triple) list of `_order_values`, in domain iteration
order. -/
def orderValuesRaw (v : Variable) : List (ℚ × TimeSlot × String × String) :=
  (v.possible_times.map (fun t =>
    (v.possible_rooms.map (fun r =>
      (v.possible_instructors.map (fun i =>
        ((score_solution [v.assign t r i]).total_score, t, r, i))))).flatten)).flatten

/-- Python's `list.sort(reverse=True)` on (score, (t, r, i)) tuples
compares the `TimeSlot`s of two entries whenever their scores tie and
their times differ, which raises `TypeError` because the dataclass defines
no ordering. -/
def hasScoreTieDistinctTimes : List (ℚ × TimeSlot × String × String) → Bool
  | [] => false
  | x :: rest =>
    rest.any (fun y => x.1 == y.1 && x.2.1 != y.2.1) ||
      hasScoreTieDistinctTimes rest

/-- Descending tuple order used when no tie forces a `TimeSlot`
comparison: score first, then room and instructor strings. -/
def valGt (a b : ℚ × TimeSlot × String × String) : Bool :=
  if a.1 > b.1 then true
  else if a.1 = b.1 then
    if b.2.2.1 < a.2.2.1 then true
    else if a.2.2.1 = b.2.2.1 then decide (b.2.2.2 < a.2.2.2)
    else false
  else false

/-- Embedding of `Solver._order_values`. -/
def Solver.order_values (v : Variable) :
    Except PyExc (List (TimeSlot × String × String)) :=
  let values := orderValuesRaw v
  if hasScoreTieDistinctTimes values then
    .error (.typeError "'<' not supported between instances of 'TimeSlot' and 'TimeSlot'")
  else .ok ((pySorted valGt values).map (fun x => x.2))

/-- Embedding of `Solver._forward_check`: probe each future variable with
`check_assignment` on the singleton list of that variable alone, leaving
it unassigned; stop at the first variable with an empty component or no
passing triple. -/
def Solver.forward_check (mgr : ConstraintManager) (dom : Domain) :
    List Variable → Bool × List Variable
  | [] => (true, [])
  | v :: rest =>
    if v.possible_times.isEmpty || v.possible_rooms.isEmpty ||
        v.possible_instructors.isEmpty then
      (false, v :: rest)
    else
      let valid := v.possible_times.any (fun t =>
        v.possible_rooms.any (fun r =>
          v.possible_instructors.any (fun i =>
            (mgr.check_assignment dom [v.assign t r i]).isEmpty)))
      if valid then
        let res := Solver.forward_check mgr dom rest
        (res.1, v.unassign :: res.2)
      else (false, v.unassign :: rest)

/-- Embedding of `Solver._restore_domains`: recompute each future
variable's domain from `Domain.get_available_values`. -/
def Solver.restore_domains (dom : Domain) (vars : List Variable) :
    List Variable :=
  vars.map (fun v =>
    let avail := dom.get_available_values v.requirements
    v.set_domain avail.1 avail.2.1 avail.2.2)

/-- The backtracking step shared by every failure path of the value loop:
count a backtrack, unassign the current variable, recompute the future
domains. -/
def btUnwind (index : Nat) (st : SState) : SState :=
  let st1 := { st with
    stats := { st.stats with backtracks := st.stats.backtracks + 1 },
    vars := st.vars.set index ((st.vars.getD index default).unassign) }
  { st1 with vars := st1.vars.take (index + 1) ++
      Solver.restore_domains st1.domain (st1.vars.drop (index + 1)) }

/-- Dispatch on the result of the recursive `backtrack(index + 1)` call:
propagate exceptions, stop on `true`, otherwise unwind and continue the
value loop. -/
def btAfterRec (k : SState → Except (PyExc × SState) (Bool × SState)) :
    Except (PyExc × SState) (Bool × SState) →
      Except (PyExc × SState) (Bool × SState)
  | .error es => .error es
  | .ok (true, st3) => .ok (true, st3)
  | .ok (false, st3) => k st3

/-- The `for t, r, i in ordered_values` loop of `backtrack`, with the
recursive call `backtrack(index + 1)` passed in as `recurse`. -/
def btLoop (recurse : SState → Except (PyExc × SState) (Bool × SState))
    (mgr : ConstraintManager) (index : Nat) :
    List (TimeSlot × String × String) → SState →
      Except (PyExc × SState) (Bool × SState)
  | [], st => .ok (false, st)
  | (t, r, i) :: rest, st =>
    let st1 := { st with
      stats := { st.stats with assignments := st.stats.assignments + 1 },
      vars := st.vars.set index ((st.vars.getD index default).assign t r i) }
    let violations := mgr.check_assignment st1.domain (st1.vars.take (index + 1))
    if violations.isEmpty then
      let fc := Solver.forward_check mgr st1.domain (st1.vars.drop (index + 1))
      let st2 := { st1 with vars := st1.vars.take (index + 1) ++ fc.2 }
      if fc.1 then
        btAfterRec
          (fun st3 => btLoop recurse mgr index rest (btUnwind index st3))
          (recurse st2)
      else btLoop recurse mgr index rest (btUnwind index st2)
    else btLoop recurse mgr index rest (btUnwind index st1)

/-- Embedding of the recursive `backtrack` closure of `Solver.solve`.
`fuel` bounds the recursion depth; `solve` passes `vars.length + 1`,
which the depth (one per index up to `len(variables)`) never exceeds. -/
def backtrack (mgr : ConstraintManager) (maxSol : Nat) (timeout elapsed : ℚ)
    (optBar : Option ℚ) :
    Nat → Nat → SState → Except (PyExc × SState) (Bool × SState)
  | 0, _, st => .ok (false, st)
  | fuel + 1, index, st =>
    if elapsed > timeout then .ok (false, st)
    else if index = st.vars.length then
      let metrics := score_solution st.vars
      let improved := match st.best_metrics with
        | none => true
        | some bm => decide (metrics.total_score > bm.total_score)
      if improved then
        let newSol := st.vars.map Variable.clone
        let st1 := { st with
          best_metrics := some metrics,
          best_solution := some newSol,
          solutions := st.solutions ++ [newSol] }
        if st1.solutions.length ≥ maxSol ∧ gtBar metrics.total_score optBar then
          .ok (true, st1)
        else .ok (decide (st1.solutions.length < maxSol), st1)
      else .ok (decide (st.solutions.length < maxSol), st)
    else
      match Solver.order_values (st.vars.getD index default) with
      | .error e => .error (e, st)
      | .ok ordered =>
        btLoop (backtrack mgr maxSol timeout elapsed optBar fuel (index + 1))
          mgr index ordered st

/-- Embedding of `Solver.solve`: run `backtrack(0)` over the initial state
and return the collected solutions (or the raised exception) together with
the final state.  Under the zero-model-time abstraction `elapsed = 0` and
the optimiser bar starts at -inf (`none`). -/
def Solver.solve (mgr : ConstraintManager) (dom : Domain)
    (vars : List Variable) (max_solutions : Nat) (timeout : ℚ) :
    Except PyExc (List (List Variable)) × SState :=
  match backtrack mgr max_solutions timeout 0 none (vars.length + 1) 0
      { vars := vars, domain := dom } with
  | .ok (_, st) => (.ok st.solutions, st)
  | .error (e, st) => (.error e, st)

/-- The state carried by a `backtrack` result, exception or not. -/
def btState : Except (PyExc × SState) (Bool × SState) → SState
  | .ok p => p.2
  | .error p => p.2

theorem btUnwind_domain (index : Nat) (st : SState) :
    (btUnwind index st).domain = st.domain := rfl

theorem btAfterRec_domain (k : SState → Except (PyExc × SState) (Bool × SState))
    (res : Except (PyExc × SState) (Bool × SState)) (d : Domain)
    (hk : ∀ s, (btState (k s)).domain = s.domain)
    (hres : (btState res).domain = d) :
    (btState (btAfterRec k res)).domain = d := by
  cases res with
  | error es => exact hres
  | ok p =>
    obtain ⟨b, st3⟩ := p
    cases b with
    | true => exact hres
    | false => rw [btAfterRec, hk st3]; exact hres

theorem btLoop_domain (recurse : SState → Except (PyExc × SState) (Bool × SState))
    (mgr : ConstraintManager) (index : Nat)
    (hrec : ∀ s, (btState (recurse s)).domain = s.domain) :
    ∀ (triples : List (TimeSlot × String × String)) (st : SState),
      (btState (btLoop recurse mgr index triples st)).domain = st.domain := by
  intro triples
  induction triples with
  | nil => intro st; rfl
  | cons head rest ih =>
    intro st
    obtain ⟨t, r, i⟩ := head
    simp only [btLoop]
    split
    · split
      · exact btAfterRec_domain _ _ _
          (fun s => (ih (btUnwind index s)).trans (btUnwind_domain index s))
          (hrec _)
      · exact (ih _).trans rfl
    · exact (ih _).trans rfl

theorem backtrack_domain (mgr : ConstraintManager) (maxSol : Nat)
    (timeout elapsed : ℚ) (optBar : Option ℚ) :
    ∀ (fuel index : Nat) (st : SState),
      (btState (backtrack mgr maxSol timeout elapsed optBar fuel index st)).domain
        = st.domain := by
  intro fuel
  induction fuel with
  | zero => intro index st; rfl
  | succ n ih =>
    intro index st
    simp only [backtrack]
    split
    · rfl
    · split
      · split
        · split
          · rfl
          · rfl
        · rfl
      · split
        · rfl
        · exact btLoop_domain _ mgr index (fun s => ih (index + 1) s) _ st

/-- C7: `Solver.solve` leaves the Domain untouched: after any call, the
room table and the instructor table (hence every resource's
`available_times`) are identical to their pre-solve content, whether the
search returned solutions or raised. -/
theorem C7_solve_preserves_domain :
    ∀ (mgr : ConstraintManager) (dom : Domain) (vars : List Variable)
      (max_solutions : Nat) (timeout : ℚ),
      (Solver.solve mgr dom vars max_solutions timeout).2.domain.rooms =
        dom.rooms ∧
      (Solver.solve mgr dom vars max_solutions timeout).2.domain.instructors =
        dom.instructors := by
  intro mgr dom vars ms timeout
  have h := backtrack_domain mgr ms timeout 0 none (vars.length + 1) 0
    { vars := vars, domain := dom }
  unfold Solver.solve
  cases hb : backtrack mgr ms timeout 0 none (vars.length + 1) 0
      { vars := vars, domain := dom } with
  | ok p =>
    rw [hb] at h
    obtain ⟨b, stf⟩ := p
    have hd : stf.domain = dom := h
    simp only [hb, hd]
    exact ⟨trivial, trivial⟩
  | error p =>
    rw [hb] at h
    obtain ⟨e, stf⟩ := p
    have hd : stf.domain = dom := h
    simp only [hb, hd]
    exact ⟨trivial, trivial⟩

/-- The state `backtrack` produces from an empty variable list and a fresh
solver state: one recorded solution, zero score. -/
def c4FinalState : SState :=
  { vars := [], domain := {}, best_metrics := some ⟨0, 0, 0, 0⟩,
    best_solution := some [], solutions := [[]] }

theorem score_solution_nil :
    score_solution ([] : List Variable) = ⟨0, 0, 0, 0⟩ := by
  simp [score_solution, calculate_gaps_score, calculate_preference_score,
    calculate_distribution_score, gapsGroup]

/-- C4 counterexample: with `max_solutions = 2`, the first time `backtrack`
reaches `index == len(variables)` it records the solution and returns
`true` even though the collected solutions (one) have not reached
`max_solutions`, because the fall-through `return len(solutions) <
max_solutions` yields `true`; the claim says the call returns `false`
then. -/
theorem C4_counterexample :
    backtrack defaultConstraintManager 2 300 0 none 1 0
        { vars := [], domain := {} } = .ok (true, c4FinalState) ∧
    ¬(2 ≤ c4FinalState.solutions.length) ∧
    gtBar (0 : ℚ) none = true := by
  refine ⟨?_, by norm_num [c4FinalState], rfl⟩
  have h1 : ¬((0 : ℚ) > 300) := by norm_num
  simp only [backtrack, if_neg h1]
  norm_num [score_solution_nil, gtBar, c4FinalState]

/-- C4 amended: at `index == len(variables)` with the timeout not
exceeded, the base case records a deep clone as a new solution exactly
when the score beats the best so far (or none is recorded), and returns
true iff either the score improved, the (updated) solutions count reached
`max_solutions` and the score clears the optimiser's bar, or the solutions
count after the possible append is still below `max_solutions`. -/
theorem C4_backtrack_base_amended (mgr : ConstraintManager) (maxSol : Nat)
    (timeout elapsed : ℚ) (optBar : Option ℚ) (fuel : Nat) (st : SState)
    (htime : ¬ elapsed > timeout) :
    ∀ m, score_solution st.vars = m →
      ((st.best_metrics = none ∨
        (∃ bm, st.best_metrics = some bm ∧ m.total_score > bm.total_score)) →
        ∃ ret, backtrack mgr maxSol timeout elapsed optBar (fuel + 1)
            st.vars.length st =
          .ok (ret, { st with
            best_metrics := some m,
            best_solution := some (st.vars.map Variable.clone),
            solutions := st.solutions ++ [st.vars.map Variable.clone] }) ∧
          (ret = true ↔
            ((st.solutions ++ [st.vars.map Variable.clone]).length ≥ maxSol ∧
              gtBar m.total_score optBar = true) ∨
            (st.solutions ++ [st.vars.map Variable.clone]).length < maxSol)) ∧
      ((∃ bm, st.best_metrics = some bm ∧ ¬(m.total_score > bm.total_score)) →
        ∃ ret, backtrack mgr maxSol timeout elapsed optBar (fuel + 1)
            st.vars.length st = .ok (ret, st) ∧
          (ret = true ↔ st.solutions.length < maxSol)) := by
  intro m hm
  constructor
  · intro himp
    have himpb : (match st.best_metrics with
        | none => true
        | some bm => decide (m.total_score > bm.total_score)) = true := by
      rcases himp with hnone | ⟨bm, hbm, hgt⟩
      · rw [hnone]
      · rw [hbm]
        simpa using hgt
    by_cases hcond : (st.solutions ++ [st.vars.map Variable.clone]).length ≥
        maxSol ∧ gtBar m.total_score optBar = true
    · refine ⟨true, ?_, iff_of_true rfl (Or.inl hcond)⟩
      simp only [backtrack, if_neg htime, eq_self_iff_true, if_true]
      rw [hm, himpb]
      simp only [eq_self_iff_true, if_true]
      rw [if_pos hcond]
    · refine ⟨decide ((st.solutions ++ [st.vars.map Variable.clone]).length
        < maxSol), ?_, ?_⟩
      · simp only [backtrack, if_neg htime, eq_self_iff_true, if_true]
        rw [hm, himpb]
        simp only [eq_self_iff_true, if_true]
        rw [if_neg hcond]
      · constructor
        · intro hd
          exact Or.inr (of_decide_eq_true hd)
        · rintro (hc | hlt)
          · exact absurd hc hcond
          · exact decide_eq_true hlt
  · rintro ⟨bm, hbm, hngt⟩
    have himpb : (match st.best_metrics with
        | none => true
        | some bm => decide (m.total_score > bm.total_score)) = false := by
      rw [hbm]
      simpa using hngt
    refine ⟨decide (st.solutions.length < maxSol), ?_, ?_⟩
    · simp only [backtrack, if_neg htime, eq_self_iff_true, if_true]
      rw [hm, himpb]
      simp only [Bool.false_eq_true, if_false]
    · constructor
      · intro hd
        exact of_decide_eq_true hd
      · intro hlt
        exact decide_eq_true hlt

/-- Witness for the amended C4 at a concrete base-case state: one empty
variable list, `max_solutions = 2`, no best yet. -/
theorem C4_backtrack_base_amended_witness :
    ¬((0 : ℚ) > 300) ∧
    score_solution ([] : List Variable) = ⟨0, 0, 0, 0⟩ ∧
    ∃ ret, backtrack defaultConstraintManager 2 300 0 none 1 0
        { vars := [], domain := {} } = .ok (ret, c4FinalState) ∧
      (ret = true ↔
        ((([] : List (List Variable)) ++ [[]]).length ≥ 2 ∧
          gtBar (0 : ℚ) none = true) ∨
        (([] : List (List Variable)) ++ [[]]).length < 2) := by
  refine ⟨by norm_num, score_solution_nil, ?_⟩
  exact (C4_backtrack_base_amended defaultConstraintManager 2 300 0 none 0
    { vars := [], domain := {} } (by norm_num) ⟨0, 0, 0, 0⟩
    score_solution_nil).1 (Or.inl rfl)

theorem unassign_not_assigned (v : Variable) :
    (v.unassign).is_assigned = false := rfl

/-- C3 amended: `_forward_check` returns true iff every future variable
has a triple in its domain whose assignment passes `check_assignment` on
the singleton list of that variable alone — the partial assignment is
never consulted, and soft violations also disqualify a triple; every
probed variable is left unassigned. -/
theorem C3_forward_check_amended (mgr : ConstraintManager) (dom : Domain) :
    ∀ (future : List Variable),
      ((Solver.forward_check mgr dom future).1 = true ↔
        ∀ v ∈ future, ∃ t ∈ v.possible_times, ∃ r ∈ v.possible_rooms,
          ∃ i ∈ v.possible_instructors,
            mgr.check_assignment dom [v.assign t r i] = []) ∧
      ((∀ v ∈ future, v.is_assigned = false) →
        ∀ w ∈ (Solver.forward_check mgr dom future).2,
          w.is_assigned = false) := by
  intro future
  induction future with
  | nil =>
    refine ⟨?_, ?_⟩
    · simp [Solver.forward_check]
    · intro _ w hw
      cases hw
  | cons v rest ih =>
    by_cases hempty : v.possible_times.isEmpty = true ∨
        v.possible_rooms.isEmpty = true ∨ v.possible_instructors.isEmpty = true
    · have hfc : Solver.forward_check mgr dom (v :: rest) = (false, v :: rest) := by
        simp only [Solver.forward_check]
        rcases hempty with h | h | h <;> simp [h]
      refine ⟨?_, ?_⟩
      · rw [hfc]
        simp only [Bool.false_eq_true, false_iff]
        intro hall
        rcases hall v (List.mem_cons_self v rest) with ⟨t, ht, r, hr, i, hi, _⟩
        rcases hempty with h | h | h
        · rw [List.isEmpty_iff] at h
          rw [h] at ht
          cases ht
        · rw [List.isEmpty_iff] at h
          rw [h] at hr
          cases hr
        · rw [List.isEmpty_iff] at h
          rw [h] at hi
          cases hi
      · rw [hfc]
        intro hun w hw
        exact hun w hw
    · push_neg at hempty
      have h1 : v.possible_times.isEmpty = false :=
        Bool.not_eq_true _ ▸ (by simpa using hempty.1)
      have h2 : v.possible_rooms.isEmpty = false := by simpa using hempty.2.1
      have h3 : v.possible_instructors.isEmpty = false := by
        simpa using hempty.2.2
      have hvalidify : (v.possible_times.any (fun t =>
          v.possible_rooms.any (fun r =>
            v.possible_instructors.any (fun i =>
              (mgr.check_assignment dom [v.assign t r i]).isEmpty)))) = true ↔
          ∃ t ∈ v.possible_times, ∃ r ∈ v.possible_rooms,
            ∃ i ∈ v.possible_instructors,
              mgr.check_assignment dom [v.assign t r i] = [] := by
        simp [List.any_eq_true, List.isEmpty_iff]
      by_cases hvalid : (v.possible_times.any (fun t =>
          v.possible_rooms.any (fun r =>
            v.possible_instructors.any (fun i =>
              (mgr.check_assignment dom [v.assign t r i]).isEmpty)))) = true
      · have hfc : Solver.forward_check mgr dom (v :: rest) =
            ((Solver.forward_check mgr dom rest).1,
              v.unassign :: (Solver.forward_check mgr dom rest).2) := by
          simp only [Solver.forward_check, h1, h2, h3]
          simp [hvalid]
        refine ⟨?_, ?_⟩
        · rw [hfc]
          rw [List.forall_mem_cons]
          constructor
          · intro hrest
            exact ⟨hvalidify.mp hvalid, (ih.1).mp hrest⟩
          · intro hh
            exact (ih.1).mpr hh.2
        · rw [hfc]
          intro hun w hw
          rcases List.mem_cons.mp hw with rfl | hw'
          · exact unassign_not_assigned v
          · exact ih.2 (fun x hx => hun x (List.mem_cons_of_mem v hx)) w hw'
      · have hfc : Solver.forward_check mgr dom (v :: rest) =
            (false, v.unassign :: rest) := by
          simp only [Solver.forward_check, h1, h2, h3]
          simp [hvalid]
        refine ⟨?_, ?_⟩
        · rw [hfc]
          simp only [Bool.false_eq_true, false_iff]
          intro hall
          exact hvalid (hvalidify.mpr (hall v (List.mem_cons_self v rest)))
        · rw [hfc]
          intro hun w hw
          rcases List.mem_cons.mp hw with rfl | hw'
          · exact unassign_not_assigned v
          · exact hun w (List.mem_cons_of_mem v hw')

/-- Domain with one slot, one lecture room, one instructor. -/
def dom3 : Domain :=
  { time_slots := [mondaySlot],
    rooms := [("R1", roomLecture "R1")],
    instructors := [("I1", { instructor_id := "I1" })] }

/-- An already-assigned variable occupying (mondaySlot, R1, I1). -/
def x3 : Variable :=
  { course_id := "CSC110", level := 1,
    requirements := ⟨"Lecture", 30, false, false⟩,
    assigned_time := some mondaySlot, assigned_room := some "R1",
    assigned_instructor := some "I1" }

/-- A future variable whose only candidate triple is exactly the booked
(mondaySlot, R1, I1). -/
def f3 : Variable :=
  { course_id := "CSC111", level := 1,
    requirements := ⟨"Lecture", 30, false, false⟩,
    possible_times := [mondaySlot], possible_rooms := ["R1"],
    possible_instructors := ["I1"] }

/-- C3 counterexample: with the partial assignment holding `x3`, the only
triple of the future variable `f3` produces a hard (severity 1.0) room
conflict against `x3`, yet `_forward_check` returns true because it checks
the future variable in isolation. -/
theorem C3_counterexample :
    (Solver.forward_check defaultConstraintManager dom3 [f3]).1 = true ∧
    ¬(∃ t ∈ f3.possible_times, ∃ r ∈ f3.possible_rooms,
        ∃ i ∈ f3.possible_instructors,
        ∀ viol ∈ ConstraintManager.check_assignment defaultConstraintManager
          dom3 [x3, f3.assign t r i], viol.severity ≠ 1) := by
  refine ⟨by decide, by decide⟩

/-- Witness for the amended C3: the unassigned future list `[f3]` is left
unassigned by `_forward_check`. -/
theorem C3_forward_check_amended_witness :
    (∀ v ∈ [f3], v.is_assigned = false) ∧
    (∀ w ∈ (Solver.forward_check defaultConstraintManager dom3 [f3]).2,
      w.is_assigned = false) :=
  ⟨by decide,
    (C3_forward_check_amended defaultConstraintManager dom3 [f3]).2 (by decide)⟩

/-! ### Timetable generator (`src/src/generator/timetable_generator.py`)

The generator's interactions with the outside world are supplied as oracle
parameters: the outcome of `level_parser.load_levels()` (file and JSON
I/O), the list returned by `level_parser.validate(raise_errors=False)`,
the parsed `levels` mapping in dict iteration order, and the behaviour of
the sqlite lookup inside `_get_course_requirements` (a fetch oracle that
may raise or return `None`).  Everything else follows the source. -/

/-- The `stats` dict of `generate`. -/
structure GenStats where
  attempts : Nat := 0
  total_variables : Nat := 0
  total_time : Nat := 0
deriving DecidableEq, Repr

/-- Embedding of `GeneratorResult`. -/
structure GeneratorResult where
  success : Bool
  timetable : Option (List (Int × Option (List Variable))) := none
  error : Option String := none
  stats : Option GenStats := none
deriving DecidableEq, Repr

/-- Split a character list at every occurrence of `c` (Python
`str.split` with an explicit separator keeps empty pieces). -/
def splitOnChar (c : Char) : List Char → List (List Char)
  | [] => [[]]
  | x :: xs =>
    let r := splitOnChar c xs
    if x = c then [] :: r
    else
      match r with
      | [] => [[x]]
      | y :: ys => (x :: y) :: ys

/-- Decimal digits to a number, `none` on anything else. -/
def digitsToNat (l : List Char) : Option Nat :=
  if l ≠ [] ∧ l.all (fun c => c.isDigit) then
    some (l.foldl (fun acc c => acc * 10 + (c.toNat - 48)) 0)
  else none

/-- Python `int(s)` (signed decimal or `ValueError`). -/
def pyInt (s : String) : Except PyExc Int :=
  match digitsToNat s.toList with
  | some n => .ok (n : Int)
  | none =>
    match s.toList with
    | '-' :: rest =>
      match digitsToNat rest with
      | some n => .ok (-(n : Int))
      | none => .error (.valueError
          ("invalid literal for int() with base 10: '" ++ s ++ "'"))
    | _ => .error (.valueError
        ("invalid literal for int() with base 10: '" ++ s ++ "'"))

/-- Embedding of `int(level.split('_')[1])`. -/
def parseLevelNum (s : String) : Except PyExc Int :=
  match ((splitOnChar '_' s.toList).map (fun l => String.mk l))[1]? with
  | none => .error (.indexError "list index out of range")
  | some p => pyInt p

/-- Python `f"{x}"` on an `Optional[str]`. -/
def optStrRender : Option String → String
  | none => "None"
  | some s => s

/-- Python repr of a list of strings, used by
`f"Level validation failed: {validation_errors}"`. -/
def pyStrListRepr (xs : List String) : String :=
  "[" ++ String.intercalate ", " (xs.map (fun e => "'" ++ e ++ "'")) ++ "]"

/-- Dict assignment `complete_timetable[level_num] = result.variables`. -/
def timetableSet (m : List (Int × Option (List Variable))) (k : Int)
    (v : Option (List Variable)) : List (Int × Option (List Variable)) :=
  match m.find? (fun p => p.1 == k) with
  | some _ => m.map (fun p => if p.1 == k then (p.1, v) else p)
  | none => m ++ [(k, v)]

/-- Embedding of `TimetableGenerator._create_variables`: fetch each
course's requirements through the oracle, skip courses without
requirements, and attach the initial domain from
`Domain.get_available_values`. -/
def create_variables (dom : Domain)
    (fetch : String → Except PyExc (Option ResourceRequirements))
    (level : Int) : List String → Except PyExc (List Variable)
  | [] => .ok []
  | c :: rest =>
    match fetch c with
    | .error e => .error e
    | .ok none => create_variables dom fetch level rest
    | .ok (some req) =>
      match create_variables dom fetch level rest with
      | .error e => .error e
      | .ok tail =>
        let avail := dom.get_available_values req
        .ok ((({ course_id := c, level := level, requirements := req } :
          Variable).set_domain avail.1 avail.2.1 avail.2.2) :: tail)

/-- The failure result returned when a level cannot be scheduled. -/
def schedFailResult (levelKey : String) (err : Option String) : GeneratorResult :=
  { success := false, error := some ("Failed to schedule level " ++ levelKey ++ ": " ++ optStrRender err) }

/-- The failure result produced by the `except` clause of `generate`. -/
def genExcResult (e : PyExc) : GeneratorResult :=
  { success := false, error := some ("Generation failed: " ++ e.str) }

/-- The per-level loop of `generate`. -/
def genLoop (dom : Domain)
    (fetch : String → Except PyExc (Option ResourceRequirements))
    (maxAtt : Nat) :
    List (String × List String) → List (Int × Option (List Variable)) →
      GenStats → Except PyExc GeneratorResult
  | [], timetable, stats =>
    .ok { success := true, timetable := some timetable, stats := some stats }
  | (levelKey, courses) :: rest, timetable, stats =>
    match parseLevelNum levelKey with
    | .error e => .error e
    | .ok levelNum =>
      match create_variables dom fetch levelNum courses with
      | .error e => .error e
      | .ok vs =>
        let stats1 := { stats with
          total_variables := stats.total_variables + vs.length }
        let result := LevelScheduler.schedule_level dom levelNum vs maxAtt
        if result.success then
          genLoop dom fetch maxAtt rest
            (timetableSet timetable levelNum result.«variables»)
            { stats1 with attempts := stats1.attempts + maxAtt }
        else .ok (schedFailResult levelKey result.error)

/-- Embedding of `TimetableGenerator.generate`: validate, schedule level
by level, and convert every raised exception into a `success = false`
result; the function always returns a `GeneratorResult`, never raises. -/
def TimetableGenerator.generate (loadRes : Except PyExc Unit)
    (validationErrors : List String) (levels : List (String × List String))
    (dom : Domain)
    (fetch : String → Except PyExc (Option ResourceRequirements))
    (max_attempts : Nat) : GeneratorResult :=
  match loadRes with
  | .error e => genExcResult e
  | .ok _ =>
    if validationErrors.isEmpty then
      match genLoop dom fetch max_attempts levels [] {} with
      | .ok r => r
      | .error e => genExcResult e
    else
      { success := false, error := some ("Level validation failed: " ++ pyStrListRepr validationErrors) }

theorem genLoop_ok_shape (dom : Domain)
    (fetch : String → Except PyExc (Option ResourceRequirements))
    (maxAtt : Nat) :
    ∀ (levels : List (String × List String))
      (tt : List (Int × Option (List Variable))) (stats : GenStats)
      (r : GeneratorResult),
      genLoop dom fetch maxAtt levels tt stats = .ok r →
      (r.success = true → r.timetable.isSome ∧ r.error = none) ∧
      (r.success = false → r.error.isSome) := by
  intro levels
  induction levels with
  | nil =>
    intro tt stats r h
    simp only [genLoop, Except.ok.injEq] at h
    rw [← h]
    exact ⟨fun _ => ⟨rfl, rfl⟩, fun hf => by simp at hf⟩
  | cons head rest ih =>
    intro tt stats r h
    obtain ⟨levelKey, courses⟩ := head
    simp only [genLoop] at h
    cases hp : parseLevelNum levelKey with
    | error e => simp only [hp] at h; cases h
    | ok levelNum =>
      simp only [hp] at h
      cases hc : create_variables dom fetch levelNum courses with
      | error e => simp only [hc] at h; cases h
      | ok vs =>
        simp only [hc] at h
        by_cases hs : (LevelScheduler.schedule_level dom levelNum vs
            maxAtt).success = true
        · rw [if_pos hs] at h
          exact ih _ _ r h
        · rw [if_neg hs] at h
          simp only [Except.ok.injEq] at h
          rw [← h]
          exact ⟨fun ht => by simp [schedFailResult] at ht, fun _ => rfl⟩

/-- C8: `generate` surfaces every failure as a tagged `GeneratorResult`
(its return type — it never raises): a result with `success = true`
carries a timetable and no error, one with `success = false` carries an
error string; when `schedule_level` fails for a level, the loop stops
there and returns a `success = false` result whose error names the level
and the underlying reason, independent of any levels still to come; and a
raised exception (here: a failing `load_levels`) becomes a
`success = false` result tagged with the exception text. -/
theorem C8_generate_failures_tagged :
    (∀ (loadRes : Except PyExc Unit) (ve : List String)
      (levels : List (String × List String)) (dom : Domain)
      (fetch : String → Except PyExc (Option ResourceRequirements))
      (ma : Nat),
      ((TimetableGenerator.generate loadRes ve levels dom fetch ma).success =
          true →
        (TimetableGenerator.generate loadRes ve levels dom fetch
          ma).timetable.isSome ∧
        (TimetableGenerator.generate loadRes ve levels dom fetch ma).error =
          none) ∧
      ((TimetableGenerator.generate loadRes ve levels dom fetch ma).success =
          false →
        (TimetableGenerator.generate loadRes ve levels dom fetch
          ma).error.isSome)) ∧
    (∀ (dom : Domain)
      (fetch : String → Except PyExc (Option ResourceRequirements))
      (ma : Nat) (levelKey : String) (courses : List String)
      (rest rest' : List (String × List String))
      (tt : List (Int × Option (List Variable))) (stats : GenStats)
      (levelNum : Int) (vs : List Variable),
      parseLevelNum levelKey = .ok levelNum →
      create_variables dom fetch levelNum courses = .ok vs →
      (LevelScheduler.schedule_level dom levelNum vs ma).success = false →
      genLoop dom fetch ma ((levelKey, courses) :: rest) tt stats =
        .ok (schedFailResult levelKey
          (LevelScheduler.schedule_level dom levelNum vs ma).error) ∧
      genLoop dom fetch ma ((levelKey, courses) :: rest) tt stats =
        genLoop dom fetch ma ((levelKey, courses) :: rest') tt stats) ∧
    (∀ (e : PyExc) (ve : List String) (levels : List (String × List String))
      (dom : Domain)
      (fetch : String → Except PyExc (Option ResourceRequirements))
      (ma : Nat),
      TimetableGenerator.generate (.error e) ve levels dom fetch ma =
        genExcResult e) := by
  refine ⟨?_, ?_, ?_⟩
  · intro loadRes ve levels dom fetch ma
    cases loadRes with
    | error e =>
      exact ⟨fun ht => by simp [TimetableGenerator.generate, genExcResult] at ht,
        fun _ => rfl⟩
    | ok u =>
      simp only [TimetableGenerator.generate]
      by_cases hve : ve.isEmpty = true
      · rw [if_pos hve]
        cases hg : genLoop dom fetch ma levels [] {} with
        | error e =>
          simp only [hg]
          exact ⟨fun ht => by simp [genExcResult] at ht, fun _ => rfl⟩
        | ok r =>
          simp only [hg]
          exact genLoop_ok_shape dom fetch ma levels [] {} r hg
      · rw [if_neg hve]
        exact ⟨fun ht => by simp at ht, fun _ => rfl⟩
  · intro dom fetch ma levelKey courses rest rest' tt stats levelNum vs
      hp hc hs
    constructor
    · simp only [genLoop, hp, hc]
      rw [if_neg (by rw [hs]; exact Bool.false_ne_true)]
    · simp only [genLoop, hp, hc]
      rw [if_neg (by rw [hs]; exact Bool.false_ne_true),
        if_neg (by rw [hs]; exact Bool.false_ne_true)]
  · intro e ve levels dom fetch ma
    rfl

/-- The variable `_create_variables` builds for the witness course. -/
def c8Var : Variable :=
  { course_id := "CSC111", level := 1,
    requirements := ⟨"Lecture", 10, false, false⟩ }

/-- Witness for C8 at a concrete failing level: an empty domain cannot
host a lecture course, so `schedule_level` fails and `generate`'s loop
returns the tagged error naming the level. -/
theorem C8_generate_failures_tagged_witness :
    parseLevelNum "level_1" = .ok 1 ∧
    create_variables ({} : Domain)
      (fun _ => .ok (some ⟨"Lecture", 10, false, false⟩)) 1 ["CSC111"] =
      .ok [c8Var] ∧
    (LevelScheduler.schedule_level ({} : Domain) 1 [c8Var] 3).success
      = false ∧
    genLoop ({} : Domain)
      (fun _ => .ok (some ⟨"Lecture", 10, false, false⟩)) 3
      [("level_1", ["CSC111"])] [] {} =
      .ok (schedFailResult "level_1"
        (LevelScheduler.schedule_level ({} : Domain) 1 [c8Var] 3).error) := by
  refine ⟨rfl, rfl, rfl, ?_⟩
  exact (C8_generate_failures_tagged.2.1 {}
    (fun _ => .ok (some ⟨"Lecture", 10, false, false⟩)) 3 "level_1"
    ["CSC111"] [] [] [] {} 1 [c8Var] rfl rfl rfl).1

end TTS
